import Mathlib

/-!
Verification of the devtools repository: a shallow embedding of the
function-signature renderer (PreviewFunction.js), the test-harness helpers
(harness.js), and the thread-control / breakpoint protocol that the harness
drives.  The protocol implementation itself is not part of the repository
files, so its operations are modelled from the specification (each such
definition carries a doc comment starting with "Modelled from the spec:").
All other definitions are translated directly from the JavaScript source.
-/

/-! ## PreviewFunction.js : renderParams (lines 37-55) -/

/-- A React child produced by renderParams: a param span, a delimiter span
(keyed by its index, holding the text ", "), or the JavaScript value
`undefined` (produced by lodash zip padding; React renders it as nothing). -/
inductive ParamChild
  | param (key : String)
  | delimiter (key : Nat)
  | undef
deriving DecidableEq, Repr

/-- Lodash `times(n)`: the array [0, 1, ..., n-1]; for n < 1 it is empty.
The argument is an Int because the source computes `params.length - 1`,
which is -1 in JavaScript when there are no params. -/
def lodashTimes (n : Int) : List Nat :=
  List.range n.toNat

/-- Lodash `zip(xs, ys)` restricted to two input arrays: the list of pairs,
as long as the longer input, padded with `undefined` (here `none`). -/
def lodashZip2 : List α → List β → List (Option α × Option β)
  | x :: xs, y :: ys => (some x, some y) :: lodashZip2 xs ys
  | x :: xs, [] => (some x, none) :: lodashZip2 xs []
  | [], y :: ys => (none, some y) :: lodashZip2 [] ys
  | [], [] => []

/-- Lodash `flatten` of the zip result: each pair becomes its two entries in
order, a missing entry becoming the JavaScript `undefined` (`ParamChild.undef`). -/
def flattenZip (pairs : List (Option ParamChild × Option ParamChild)) : List ParamChild :=
  (pairs.map (fun pair => [pair.1.getD ParamChild.undef, pair.2.getD ParamChild.undef])).flatten

/-- PreviewFunction.renderParams (source lines 37-55).
`func.parameterNames || []`, filter the truthy (non-empty) names, map each to
a param span; build `times(params.length - 1)` comma delimiter spans; return
`flatten(zip(params, commas))`. -/
def renderParams (parameterNames : Option (List String)) : List ParamChild :=
  let names := parameterNames.getD []
  let params := (names.filter (fun s => !s.isEmpty)).map ParamChild.param
  let commas := (lodashTimes ((params.length : Int) - 1)).map ParamChild.delimiter
  flattenZip (lodashZip2 params commas)

/-! ## PreviewFunction.js : the component (lines 30-92) -/

/-- The location field of the FunctionType flow type (source lines 19-23). -/
structure FunctionLocation where
  url : String
  line : Nat
  column : Nat
deriving DecidableEq, Repr

/-- The FunctionType flow type (source lines 14-24). -/
structure FunctionType where
  name : String
  displayName : Option String
  userDisplayName : Option String
  parameterNames : Option (List String)
  location : Option FunctionLocation
deriving Repr

/-- A React child of the rendered function signature. -/
inductive SignatureChild
  | functionName (name : String)
  | paren (text : String)
  | paramChild (child : ParamChild)
  | jumpButton (title : String)
deriving DecidableEq, Repr

/-- PreviewFunction.renderFunctionName (source lines 31-35):
`func.name || l10n.getStr("anonymousFunction")` inside a span.  The localized
anonymous label is a parameter of the embedding. -/
def renderFunctionName (anonymousLabel : String) (func : FunctionType) : SignatureChild :=
  SignatureChild.functionName (if func.name.isEmpty then anonymousLabel else func.name)

/-- PreviewFunction.jumpToDefinitionButton (source lines 57-78): the body is
`return null;` on its first line, so the location-checking code below it
(lines 60-77) is unreachable and the function yields no element for any
input. -/
def jumpToDefinitionButton (_func : FunctionType) : Option SignatureChild :=
  none

/-- Whether a signature child is a jump-to-definition button. -/
def isJumpButton : SignatureChild → Bool
  | SignatureChild.jumpButton _ => true
  | _ => false

/-- PreviewFunction.render (source lines 80-91): the children of the
function-signature span, in order; a null child renders as nothing. -/
def render (anonymousLabel : String) (func : FunctionType) : List SignatureChild :=
  [renderFunctionName anonymousLabel func, SignatureChild.paren "("]
    ++ (renderParams func.parameterNames).map SignatureChild.paramChild
    ++ [SignatureChild.paren ")"]
    ++ (jumpToDefinitionButton func).toList

/-! ## harness.js : findSource (lines 68-78) -/

/-- A source object as the harness selectors expose it: an id and an
optional url (absent urls are treated as the empty string by findSource). -/
structure HSource where
  id : Nat
  url : Option String
deriving DecidableEq, Repr

/-- The argument of findSource: either a source object or a url string
(the JavaScript code branches on `typeof url !== "string"`). -/
inductive FindSourceArg
  | sourceObject (s : HSource)
  | urlString (url : String)

/-- JavaScript `hay.includes(needle)`: the needle occurs contiguously in the
hay. -/
def jsIncludes (hay needle : String) : Bool :=
  decide (needle.data <:+: hay.data)

/-- harness.findSource (source lines 68-78): a non-string argument is
returned as is (it is already a source object); for a string, the first
source of the current source list whose url (or "" when the url is absent)
contains the string is returned, and none matches gives `undefined`. -/
def findSource (sources : List HSource) : FindSourceArg → Option HSource
  | FindSourceArg.sourceObject s => some s
  | FindSourceArg.urlString u => sources.find? (fun s => jsIncludes (s.url.getD "") u)

/-! ## Thread Control protocol

The thread-control implementation (protocol/thread, dbg.actions) is not
among the repository files; only the harness that drives it is.  The
state machine, dispatcher and snapshot cache below are therefore modelled
from the specification. -/

/-- Modelled from the spec: the thread states of the Thread Control State
Machine (spec section 4.1). -/
inductive ThreadState
  | unknown
  | running
  | paused
  | stepping
  | terminated
deriving DecidableEq, Repr

/-- Modelled from the spec: the six execution-control commands (spec
section 6). -/
inductive Command
  | resume
  | rewind
  | stepOver
  | stepIn
  | stepOut
  | reverseStepOver
deriving DecidableEq, Repr

/-- Modelled from the spec: whether a command moves forward in the
recording; rewind and reverseStepOver are the backward commands. -/
def Command.isForward : Command → Bool
  | Command.rewind => false
  | Command.reverseStepOver => false
  | _ => true

/-- Modelled from the spec: one stack frame of a pause (spec section 3);
an index and a source line suffice for the properties studied here. -/
structure Frame where
  index : Nat
  line : Nat
deriving DecidableEq, Repr

/-- Modelled from the spec: the scopes of one frame, as a list of binding
names per frame index. -/
structure FrameScopes where
  bindings : List String
deriving DecidableEq, Repr

/-- Modelled from the spec: the cached view of frames/scopes for the
current pause (spec section 3, PauseSnapshot). -/
structure PauseSnapshot where
  frames : List Frame
  selectedFrame : Nat
  scopes : List FrameScopes
deriving DecidableEq, Repr

/-- Modelled from the spec: the error taxonomy of section 7. -/
inductive DebuggerError
  | unresolvedLocation
  | commandFailed
  | staleSnapshot
deriving DecidableEq, Repr

/-- Modelled from the spec: the observable state of one debugging session:
thread state, current execution point (an opaque totally ordered coordinate,
embedded as Nat), the pause snapshot cache, the current command token of the
token (spec section 9: each dispatched command carries a monotonically
increasing token, held here by the dispatcher) and the command in flight,
if any. -/
structure ThreadModel where
  state : ThreadState
  point : Nat
  snapshot : Option PauseSnapshot
  token : Nat
  pending : Option Command
deriving DecidableEq, Repr

/-- Modelled from the spec: accepting a control command (spec section 4.1).
Precondition Paused, or Stepping for supersession; the machine moves to
Stepping synchronously, the snapshot cache is invalidated the instant the
command is accepted, and the dispatcher token is advanced, cancelling the
eventual effect of any in-flight command.  A command issued in any other
state is not accepted. -/
def issueCommand (m : ThreadModel) (c : Command) : ThreadModel :=
  if m.state = ThreadState.paused ∨ m.state = ThreadState.stepping then
    { state := ThreadState.stepping
      point := m.point
      snapshot := none
      token := m.token + 1
      pending := some c }
  else m

/-- Modelled from the spec: a backend completion event: the thread paused at
a new point with pause data, continued running, or the session ended.  Each
completion echoes the token of the command it answers. -/
inductive BackendEvent
  | completePause (token : Nat) (point : Nat) (snap : PauseSnapshot)
  | completeRunning (token : Nat)
  | terminate
deriving DecidableEq, Repr

/-- Modelled from the spec: delivering a backend response (spec sections 4.1
and 5).  A response is applied only if its token matches the current token
and a command is actually in flight; otherwise it is discarded (cancellation
by supersession).  A matching pause response repopulates the snapshot cache
atomically; session end clears it. -/
def deliverResponse (m : ThreadModel) (e : BackendEvent) : ThreadModel :=
  match e with
  | BackendEvent.completePause tok pt snap =>
      if tok = m.token ∧ m.state = ThreadState.stepping then
        { state := ThreadState.paused
          point := pt
          snapshot := some snap
          token := m.token
          pending := none }
      else m
  | BackendEvent.completeRunning tok =>
      if tok = m.token ∧ m.state = ThreadState.stepping then
        { m with state := ThreadState.running, snapshot := none, pending := none }
      else m
  | BackendEvent.terminate =>
      { m with state := ThreadState.terminated, snapshot := none, pending := none }

/-- Modelled from the spec: one step of the session: either the caller
issues a command or the backend delivers an event. -/
inductive ModelEvent
  | issue (c : Command)
  | backend (e : BackendEvent)

/-- Modelled from the spec: the transition function of the session. -/
def stepModel (m : ThreadModel) : ModelEvent → ThreadModel
  | ModelEvent.issue c => issueCommand m c
  | ModelEvent.backend e => deliverResponse m e

/-- Modelled from the spec: PauseSnapshotCache.frames() (spec section 4.3):
reading the frame list; a read against an invalidated cache fails with
StaleSnapshot rather than returning old data. -/
def framesRead (m : ThreadModel) : Except DebuggerError (List Frame) :=
  match m.snapshot with
  | some snap => Except.ok snap.frames
  | none => Except.error DebuggerError.staleSnapshot

/-- Modelled from the spec: PauseSnapshotCache.scopesFor(frame) (spec
section 4.3): resolving the scopes of one frame; fails with StaleSnapshot
against an invalidated cache. -/
def scopesForRead (m : ThreadModel) (frame : Nat) : Except DebuggerError (Option FrameScopes) :=
  match m.snapshot with
  | some snap => Except.ok (snap.scopes.get? frame)
  | none => Except.error DebuggerError.staleSnapshot

/-! ## Navigation targets

Modelled from the spec (section 6): a completed forward command pauses at
the next stop strictly after the current point (or keeps running past the
end), a completed backward command at the previous stop strictly before it.
The stops of the recording are an arbitrary list of execution points. -/

/-- Modelled from the spec: the stop a completed forward command lands on:
the least recorded stop strictly after the current point. -/
def forwardTarget (stops : List Nat) (p : Nat) : Option Nat :=
  (stops.filter (fun q => p < q)).min?

/-- Modelled from the spec: the stop a completed backward command lands on:
the greatest recorded stop strictly before the current point. -/
def backwardTarget (stops : List Nat) (p : Nat) : Option Nat :=
  (stops.filter (fun q => q < p)).max?

/-- Modelled from the spec: the execution point after one completed command:
the directional target when one exists, the current point otherwise (the
thread then runs to the end of the recording in that direction without a
new pause). -/
def navStep (stops : List Nat) (c : Command) (p : Nat) : Nat :=
  if c.isForward then
    match forwardTarget stops p with
    | some q => q
    | none => p
  else
    match backwardTarget stops p with
    | some q => q
    | none => p

/-- Modelled from the spec: the execution point after a sequence of
completed commands. -/
def navRun (stops : List Nat) (cmds : List Command) (p : Nat) : Nat :=
  cmds.foldl (fun pt c => navStep stops c pt) p

/-! ## Location Resolver and Breakpoint Store

The breakpoint actions and selectors (dbg.actions.addBreakpoint,
getFirstBreakpointPosition, getBreakpointForLocation, ...) are not among the
repository files; the Breakpoint Store and the Location Resolver are
modelled from the specification (sections 4.2 and 3).  The source metadata
provider is a parameter: `meta sourceId line` is the list of breakable
columns of that line, in source order (its head is the canonical first
breakable position). -/

/-- Modelled from the spec: a resolved location: a (source, line, column)
triple snapped to a breakable position. -/
structure ResolvedLocation where
  sourceId : Nat
  line : Nat
  column : Nat
deriving DecidableEq, Repr

/-- Modelled from the spec: breakpoint options: an optional condition
expression and an optional logpoint expression (spec section 6). -/
structure BreakpointOptions where
  condition : Option String
  logValue : Option String
deriving DecidableEq, Repr

/-- Modelled from the spec: a breakpoint with a logpoint expression never
pauses; it only emits output. -/
def isLogpoint (opts : BreakpointOptions) : Bool :=
  opts.logValue.isSome

/-- Modelled from the spec: a stored breakpoint: resolved location, enabled
flag and options; disabling retains identity. -/
structure Breakpoint where
  location : ResolvedLocation
  enabled : Bool
  options : BreakpointOptions
deriving DecidableEq, Repr

/-- Modelled from the spec: the Breakpoint Store: the active breakpoints,
keyed by resolved location. -/
structure BreakpointStore where
  breakpoints : List Breakpoint
deriving DecidableEq, Repr

/-- Modelled from the spec: the Location Resolver.  A line with no breakable
position fails with UnresolvedLocation; a missing column snaps to the first
breakable position of the line, and a column that is not itself a breakable
position of the line snaps to that canonical position as well. -/
def resolveLocation (meta : Nat → Nat → List Nat) (sourceId line : Nat)
    (column : Option Nat) : Except DebuggerError ResolvedLocation :=
  match (meta sourceId line).head? with
  | none => Except.error DebuggerError.unresolvedLocation
  | some first =>
      match column with
      | none => Except.ok ⟨sourceId, line, first⟩
      | some c =>
          if c ∈ meta sourceId line then Except.ok ⟨sourceId, line, c⟩
          else Except.ok ⟨sourceId, line, first⟩

namespace BreakpointStore

/-- Modelled from the spec: BreakpointStore.add (spec section 4.2): resolve
the location (failing synchronously with UnresolvedLocation when the line
has no breakable position); if a breakpoint already exists at the resolved
location, replace its options idempotently, never creating a duplicate. -/
def add (meta : Nat → Nat → List Nat) (store : BreakpointStore) (sourceId line : Nat)
    (column : Option Nat) (opts : BreakpointOptions) : Except DebuggerError BreakpointStore :=
  match resolveLocation meta sourceId line column with
  | Except.error e => Except.error e
  | Except.ok loc =>
      Except.ok ⟨⟨loc, true, opts⟩ :: store.breakpoints.filter (fun b => b.location ≠ loc)⟩

/-- Modelled from the spec: BreakpointStore.remove (spec section 4.2):
identity is by resolved location; the breakpoint stored there is deleted. -/
def remove (meta : Nat → Nat → List Nat) (store : BreakpointStore) (sourceId line : Nat)
    (column : Option Nat) : Except DebuggerError BreakpointStore :=
  match resolveLocation meta sourceId line column with
  | Except.error e => Except.error e
  | Except.ok loc =>
      Except.ok ⟨store.breakpoints.filter (fun b => b.location ≠ loc)⟩

/-- Modelled from the spec: the breakpoints stored at one resolved
location, counted. -/
def countAt (store : BreakpointStore) (loc : ResolvedLocation) : Nat :=
  (store.breakpoints.filter (fun b => b.location = loc)).length

/-- Modelled from the spec: the selector getBreakpointForLocation: the
stored breakpoint whose resolved location equals the given one. -/
def storedAt (store : BreakpointStore) (loc : ResolvedLocation) : Option Breakpoint :=
  store.breakpoints.find? (fun b => b.location = loc)

/-- Modelled from the spec: the action dbg.actions.disableBreakpoint: given
the breakpoint object the selector found (or undefined when it found none),
clear its enabled flag in place, retaining its identity; with no breakpoint
the store is unchanged. -/
def disableAction (store : BreakpointStore) : Option Breakpoint → BreakpointStore
  | none => store
  | some bp =>
      ⟨store.breakpoints.map (fun b =>
        if b.location = bp.location then { b with enabled := false } else b)⟩

end BreakpointStore

/-! ## harness.js : breakpoint helpers (lines 119-132) -/

/-- harness.getFirstBreakpointColumn (source lines 128-132): the column of
`getFirstBreakpointPosition({ line, sourceId })`, that is the first
breakable position of the line; none when the line has no breakable
position (there the JavaScript would fail reading `.column` of undefined). -/
def getFirstBreakpointColumn (meta : Nat → Nat → List Nat) (line sourceId : Nat) : Option Nat :=
  (meta sourceId line).head?

/-- harness.disableBreakpoint, the column defaulting of source line 122:
`column = column || getFirstBreakpointColumn(line, sourceId)`.  A missing or
zero column (both falsy in JavaScript) is replaced by the first breakable
column of the line; any other supplied column is used as is. -/
def harnessDisableColumn (meta : Nat → Nat → List Nat) (sourceId line : Nat)
    (column : Option Nat) : Option Nat :=
  match column with
  | some c => if c ≠ 0 then some c else getFirstBreakpointColumn meta line sourceId
  | none => getFirstBreakpointColumn meta line sourceId

/-- harness.disableBreakpoint (source lines 119-126): default the column,
look the breakpoint up by the exact location built from the defaulted
column, and run the disable action on whatever the lookup produced.  The
result is none when even the defaulting fails (a line with no breakable
position at all). -/
def harnessDisableBreakpoint (meta : Nat → Nat → List Nat) (store : BreakpointStore)
    (sourceId line : Nat) (column : Option Nat) : Option BreakpointStore :=
  match harnessDisableColumn meta sourceId line column with
  | none => none
  | some c =>
      some (BreakpointStore.disableAction store
        (BreakpointStore.storedAt store ⟨sourceId, line, c⟩))

/-! ## Logpoint crossings -/

/-- Modelled from the spec: one crossing of an annotated location during a
directional scan: the resolved location, the options of the breakpoint or
logpoint there, and the frame at the crossing. -/
structure Crossing where
  location : ResolvedLocation
  options : BreakpointOptions
  frame : Frame
deriving DecidableEq, Repr

/-- Modelled from the spec: BreakpointStore.evaluateLogpoint (spec section
4.2): invoked when execution crosses a logpoint location; it never touches
the session state and produces the zero or more text messages of this
crossing, each delivered to the console collaborator. -/
def evaluateLogpoint (evalMessages : ResolvedLocation → Frame → List String)
    (m : ThreadModel) (loc : ResolvedLocation) (frame : Frame) : ThreadModel × List String :=
  (m, evalMessages loc frame)

/-- Modelled from the spec: the backend scan of a directional command over
the annotated locations it crosses, in execution order.  A logpoint crossing
contributes exactly one evaluation callback (location with its messages) and
the scan continues; a breakpoint whose condition fails suppresses the pause
and the scan continues; any other breakpoint halts the scan with a pause.
When the scan runs out of crossings the thread keeps running. -/
def scanCrossings (evalMessages : ResolvedLocation → Frame → List String)
    (condEval : ResolvedLocation → Frame → String → Bool) :
    List Crossing → ThreadState × List (ResolvedLocation × List String)
  | [] => (ThreadState.running, [])
  | x :: rest =>
      if isLogpoint x.options then
        let result := scanCrossings evalMessages condEval rest
        (result.1, (x.location, evalMessages x.location x.frame) :: result.2)
      else
        match x.options.condition with
        | some cond =>
            if condEval x.location x.frame cond then (ThreadState.paused, [])
            else scanCrossings evalMessages condEval rest
        | none => (ThreadState.paused, [])


/-- The name of a param child, none for delimiters and undefined. -/
def paramNameOf : ParamChild → Option String
  | ParamChild.param s => some s
  | _ => none

/-- Whether a child is a comma delimiter span. -/
def isDelimiterChild : ParamChild → Bool
  | ParamChild.delimiter _ => true
  | _ => false

/-- The shape of a rendered parameter list, forgetting delimiter keys: used
to compare renderParams against the specified alternation of names and
commas. -/
inductive ParamShape
  | nameTok (s : String)
  | commaTok
deriving DecidableEq, Repr

/-- The shape of one child (only applied after undefined entries are
dropped; a delimiter becomes a comma). -/
def shapeOf : ParamChild → ParamShape
  | ParamChild.param s => ParamShape.nameTok s
  | _ => ParamShape.commaTok

/-! ## Theorems -/

theorem find?_first_decomposition {α : Type} (p : α → Bool) :
    ∀ (l : List α) (a : α), l.find? p = some a →
      ∃ pre post, l = pre ++ a :: post ∧ ∀ t ∈ pre, ¬ p t = true := by
  intro l
  induction l with
  | nil => intro a h; simp [List.find?] at h
  | cons x xs ih =>
      intro a h
      by_cases hx : p x = true
      · rw [List.find?_cons_of_pos _ hx] at h
        obtain rfl : x = a := by injection h
        exact ⟨[], xs, rfl, by intro t ht; simp at ht⟩
      · rw [List.find?_cons_of_neg _ hx] at h
        obtain ⟨pre, post, heq, hpre⟩ := ih a h
        refine ⟨x :: pre, post, by rw [heq]; rfl, ?_⟩
        intro t ht
        rcases List.mem_cons.mp ht with rfl | hmem
        · exact hx
        · exact hpre t hmem

/-- C10: a non-string argument is returned unchanged by findSource; a string
argument yields the first source whose url (empty when absent) contains it
as a substring, and undefined exactly when no source matches. -/
theorem findSource_first_url_match :
    ∀ (sources : List HSource),
      (∀ s : HSource, findSource sources (FindSourceArg.sourceObject s) = some s) ∧
      (∀ u : String,
        (findSource sources (FindSourceArg.urlString u) = none ↔
          ∀ s ∈ sources, ¬ u.data <:+: (s.url.getD "").data) ∧
        (∀ s : HSource, findSource sources (FindSourceArg.urlString u) = some s →
          s ∈ sources ∧ u.data <:+: (s.url.getD "").data ∧
          ∃ pre post, sources = pre ++ s :: post ∧
            ∀ t ∈ pre, ¬ u.data <:+: (t.url.getD "").data)) := by
  intro sources
  refine ⟨fun s => rfl, fun u => ⟨?_, ?_⟩⟩
  · simp [findSource, jsIncludes, List.find?_eq_none]
  · intro s hfind
    have hmem := List.mem_of_find?_eq_some hfind
    have hp := List.find?_some hfind
    have hinc : u.data <:+: (s.url.getD "").data := by
      simpa [jsIncludes] using hp
    obtain ⟨pre, post, heq, hpre⟩ := find?_first_decomposition _ sources s hfind
    exact ⟨hmem, hinc, pre, post, heq, fun t ht => by simpa [jsIncludes] using hpre t ht⟩

/-- C9: jumpToDefinitionButton yields no element for any function value, and
the rendered signature never contains a jump-to-definition button. -/
theorem render_never_contains_jump_button :
    ∀ (anonymousLabel : String) (func : FunctionType),
      jumpToDefinitionButton func = none ∧
      (render anonymousLabel func).all (fun child => !isJumpButton child) = true := by
  intro label func
  refine ⟨rfl, ?_⟩
  rw [List.all_eq_true]
  intro child hmem
  simp only [render, jumpToDefinitionButton, Option.toList_none, List.append_nil,
    List.mem_append, List.mem_cons, List.mem_map, List.mem_singleton,
    List.not_mem_nil, or_false] at hmem
  rcases hmem with ((rfl | rfl) | ⟨a, _, rfl⟩) | rfl <;> simp [isJumpButton, renderFunctionName]

theorem flattenZip_alternation :
    ∀ (cs : List Nat) (xs : List String), cs.length + 1 = xs.length →
      (flattenZip (lodashZip2 (xs.map ParamChild.param)
          (cs.map ParamChild.delimiter))).filterMap paramNameOf = xs ∧
      ((flattenZip (lodashZip2 (xs.map ParamChild.param)
          (cs.map ParamChild.delimiter))).filter isDelimiterChild).length = cs.length ∧
      ((flattenZip (lodashZip2 (xs.map ParamChild.param)
          (cs.map ParamChild.delimiter))).filter
            (fun e => decide (e ≠ ParamChild.undef))).map shapeOf =
        List.intersperse ParamShape.commaTok (xs.map ParamShape.nameTok) := by
  intro cs
  induction cs with
  | nil =>
      intro xs hlen
      obtain ⟨x, rfl⟩ := List.length_eq_one.mp hlen.symm
      simp [flattenZip, lodashZip2, paramNameOf, isDelimiterChild, shapeOf]
  | cons c cs ih =>
      intro xs hlen
      match xs, hlen with
      | x :: y :: xs, hlen =>
          have hlen2 : cs.length + 1 = (y :: xs).length := by
            simpa using hlen
          obtain ⟨h1, h2, h3⟩ := ih (y :: xs) hlen2
          refine ⟨?_, ?_, ?_⟩
          · simpa [flattenZip, lodashZip2, paramNameOf] using h1
          · simpa [flattenZip, lodashZip2, isDelimiterChild] using h2
          · simp only [List.map_cons, List.intersperse_cons_cons]
            simpa [flattenZip, lodashZip2, shapeOf] using h3

theorem lodashTimes_sub_one (n : Nat) : lodashTimes ((n : Int) - 1) = List.range (n - 1) := by
  unfold lodashTimes
  congr 1
  omega

/-- C8: renderParams yields the non-empty parameter names in order, exactly
one fewer comma delimiters than params, and (once the undefined padding
entry is dropped) the children alternate name, comma, name, ..., name: no
delimiter before the first or after the last parameter. -/
theorem renderParams_params_and_delimiters :
    ∀ (parameterNames : Option (List String)),
      (renderParams parameterNames).filterMap paramNameOf =
        (parameterNames.getD []).filter (fun s => !s.isEmpty) ∧
      ((renderParams parameterNames).filter isDelimiterChild).length =
        ((parameterNames.getD []).filter (fun s => !s.isEmpty)).length - 1 ∧
      ((renderParams parameterNames).filter
          (fun e => decide (e ≠ ParamChild.undef))).map shapeOf =
        List.intersperse ParamShape.commaTok
          (((parameterNames.getD []).filter (fun s => !s.isEmpty)).map ParamShape.nameTok) := by
  intro pn
  have key : renderParams pn =
      flattenZip (lodashZip2 (((pn.getD []).filter (fun s => !s.isEmpty)).map ParamChild.param)
        ((List.range (((pn.getD []).filter (fun s => !s.isEmpty)).length - 1)).map
          ParamChild.delimiter)) := by
    simp only [renderParams, List.length_map, lodashTimes_sub_one]
  rw [key]
  cases hps : (pn.getD []).filter (fun s => !s.isEmpty) with
  | nil => simp [flattenZip, lodashZip2, paramNameOf, isDelimiterChild, shapeOf]
  | cons x rest =>
      have hlen : (List.range ((x :: rest).length - 1)).length + 1 = (x :: rest).length := by
        simp
      obtain ⟨h1, h2, h3⟩ := flattenZip_alternation (List.range ((x :: rest).length - 1))
        (x :: rest) hlen
      refine ⟨h1, ?_, h3⟩
      rw [h2]
      simp

/-- C1: a command B issued while A is in flight supersedes A: the backend
response of A delivered before the completion of B is discarded whole, the
final observable state after the completion of B reflects only the outcome
of B, and the response of A delivered even after that mutates neither
ThreadState, nor the ExecutionPoint, nor the PauseSnapshot. -/
theorem command_supersession :
    ∀ (m : ThreadModel) (a b : Command) (ptA ptB : Nat) (snapA snapB : PauseSnapshot),
      m.state = ThreadState.paused →
      deliverResponse (issueCommand (issueCommand m a) b)
          (BackendEvent.completePause (issueCommand m a).token ptA snapA) =
        issueCommand (issueCommand m a) b ∧
      (deliverResponse (issueCommand (issueCommand m a) b)
          (BackendEvent.completePause (issueCommand (issueCommand m a) b).token ptB snapB)).state =
        ThreadState.paused ∧
      (deliverResponse (issueCommand (issueCommand m a) b)
          (BackendEvent.completePause (issueCommand (issueCommand m a) b).token ptB snapB)).point =
        ptB ∧
      (deliverResponse (issueCommand (issueCommand m a) b)
          (BackendEvent.completePause (issueCommand (issueCommand m a) b).token ptB snapB)).snapshot =
        some snapB ∧
      deliverResponse
          (deliverResponse (issueCommand (issueCommand m a) b)
            (BackendEvent.completePause (issueCommand (issueCommand m a) b).token ptB snapB))
          (BackendEvent.completePause (issueCommand m a).token ptA snapA) =
        deliverResponse (issueCommand (issueCommand m a) b)
          (BackendEvent.completePause (issueCommand (issueCommand m a) b).token ptB snapB) := by
  intro m a b ptA ptB snapA snapB hpaused
  have hA : issueCommand m a =
      { state := ThreadState.stepping, point := m.point, snapshot := none,
        token := m.token + 1, pending := some a } := by
    simp [issueCommand, hpaused]
  have hB : issueCommand (issueCommand m a) b =
      { state := ThreadState.stepping, point := m.point, snapshot := none,
        token := m.token + 2, pending := some b } := by
    rw [hA]
    simp [issueCommand]
  refine ⟨?_, ?_, ?_, ?_, ?_⟩
  · rw [hB, hA]
    simp [deliverResponse]
  · rw [hB]; simp [deliverResponse]
  · rw [hB]; simp [deliverResponse]
  · rw [hB]; simp [deliverResponse]
  · rw [hB, hA]
    simp [deliverResponse]

/-- C1 witness: the supersession theorem at a concrete session: rewind then
resume issued from a pause at point 0, the late rewind response discarded. -/
theorem command_supersession_witness :
    deliverResponse
        (issueCommand (issueCommand ⟨ThreadState.paused, 0, some ⟨[], 0, []⟩, 0, none⟩
          Command.rewind) Command.resume)
        (BackendEvent.completePause
          (issueCommand ⟨ThreadState.paused, 0, some ⟨[], 0, []⟩, 0, none⟩ Command.rewind).token
          5 ⟨[], 0, []⟩) =
      issueCommand (issueCommand ⟨ThreadState.paused, 0, some ⟨[], 0, []⟩, 0, none⟩
        Command.rewind) Command.resume :=
  (command_supersession ⟨ThreadState.paused, 0, some ⟨[], 0, []⟩, 0, none⟩
    Command.rewind Command.resume 5 7 ⟨[], 0, []⟩ ⟨[], 0, []⟩ rfl).1

theorem navStep_forward_le (stops : List Nat) (c : Command) (p : Nat)
    (hc : c.isForward = true) : p ≤ navStep stops c p := by
  have hstep : navStep stops c p =
      match (stops.filter (fun q => p < q)).min? with
      | some q => q
      | none => p := by
    simp [navStep, forwardTarget, hc]
  rw [hstep]
  cases hmin : (stops.filter (fun q => p < q)).min? with
  | none => exact Nat.le_refl p
  | some q =>
      have hq := List.min?_mem (fun a b => min_choice a b) hmin
      have hlt : p < q := by simpa using (List.mem_filter.mp hq).2
      exact Nat.le_of_lt hlt

theorem navStep_backward_le (stops : List Nat) (c : Command) (p : Nat)
    (hc : c.isForward = false) : navStep stops c p ≤ p := by
  have hstep : navStep stops c p =
      match (stops.filter (fun q => q < p)).max? with
      | some q => q
      | none => p := by
    simp [navStep, backwardTarget, hc]
  rw [hstep]
  cases hmax : (stops.filter (fun q => q < p)).max? with
  | none => exact Nat.le_refl p
  | some q =>
      have hq := List.max?_mem (fun a b => max_choice a b) hmax
      have hlt : q < p := by simpa using (List.mem_filter.mp hq).2
      exact Nat.le_of_lt hlt

/-- C2: from a pause at point p, every sequence of completed forward
commands only visits points at or after p, and every sequence of completed
backward commands only visits points at or before p. -/
theorem executionPoint_monotone :
    ∀ (stops : List Nat) (cmds : List Command) (p : Nat),
      ((∀ c ∈ cmds, c.isForward = true) → p ≤ navRun stops cmds p) ∧
      ((∀ c ∈ cmds, c.isForward = false) → navRun stops cmds p ≤ p) := by
  intro stops cmds
  induction cmds with
  | nil => intro p; exact ⟨fun _ => Nat.le_refl p, fun _ => Nat.le_refl p⟩
  | cons c cs ih =>
      intro p
      constructor
      · intro hall
        have hc := hall c (List.mem_cons_self c cs)
        have hstep := navStep_forward_le stops c p hc
        have hrest := (ih (navStep stops c p)).1
          (fun d hd => hall d (List.mem_cons_of_mem c hd))
        calc p ≤ navStep stops c p := hstep
          _ ≤ navRun stops cs (navStep stops c p) := hrest
          _ = navRun stops (c :: cs) p := rfl
      · intro hall
        have hc := hall c (List.mem_cons_self c cs)
        have hstep := navStep_backward_le stops c p hc
        have hrest := (ih (navStep stops c p)).2
          (fun d hd => hall d (List.mem_cons_of_mem c hd))
        calc navRun stops (c :: cs) p = navRun stops cs (navStep stops c p) := rfl
          _ ≤ navStep stops c p := hrest
          _ ≤ p := hstep

/-- C5: any transition out of Paused clears the snapshot cache, and reading
frames or scopes against the invalidated snapshot fails with StaleSnapshot
instead of returning the old data. -/
theorem stale_snapshot_after_leaving_paused :
    ∀ (m : ThreadModel) (ev : ModelEvent),
      m.state = ThreadState.paused →
      (stepModel m ev).state ≠ ThreadState.paused →
      framesRead (stepModel m ev) = Except.error DebuggerError.staleSnapshot ∧
      ∀ frame : Nat, scopesForRead (stepModel m ev) frame =
        Except.error DebuggerError.staleSnapshot := by
  intro m ev hpaused hleft
  cases ev with
  | issue c =>
      have : stepModel m (ModelEvent.issue c) =
          { state := ThreadState.stepping, point := m.point, snapshot := none,
            token := m.token + 1, pending := some c } := by
        simp [stepModel, issueCommand, hpaused]
      rw [this]
      exact ⟨rfl, fun frame => rfl⟩
  | backend e =>
      cases e with
      | completePause tok pt snap =>
          exfalso
          apply hleft
          have : stepModel m (ModelEvent.backend (BackendEvent.completePause tok pt snap)) = m := by
            simp [stepModel, deliverResponse, hpaused]
          rw [this, hpaused]
      | completeRunning tok =>
          exfalso
          apply hleft
          have : stepModel m (ModelEvent.backend (BackendEvent.completeRunning tok)) = m := by
            simp [stepModel, deliverResponse, hpaused]
          rw [this, hpaused]
      | terminate =>
          have : (stepModel m (ModelEvent.backend BackendEvent.terminate)).snapshot = none := by
            simp [stepModel, deliverResponse]
          exact ⟨by rw [framesRead, this], fun frame => by rw [scopesForRead, this]⟩

/-- C5 witness: a stepOver issued from a concrete pause invalidates the
snapshot and both reads fail with StaleSnapshot. -/
theorem stale_snapshot_witness :
    framesRead (stepModel ⟨ThreadState.paused, 3, some ⟨[⟨0, 7⟩], 0, [⟨["x"]⟩]⟩, 0, none⟩
        (ModelEvent.issue Command.stepOver)) =
      Except.error DebuggerError.staleSnapshot ∧
    ∀ frame : Nat,
      scopesForRead (stepModel ⟨ThreadState.paused, 3, some ⟨[⟨0, 7⟩], 0, [⟨["x"]⟩]⟩, 0, none⟩
          (ModelEvent.issue Command.stepOver)) frame =
        Except.error DebuggerError.staleSnapshot :=
  stale_snapshot_after_leaving_paused
    ⟨ThreadState.paused, 3, some ⟨[⟨0, 7⟩], 0, [⟨["x"]⟩]⟩, 0, none⟩
    (ModelEvent.issue Command.stepOver) rfl (by decide)

/-- C4: crossing a logpoint contributes exactly one evaluation callback and
the surrounding scan continues past it, whatever follows; a scan all of
whose crossings are logpoints ends with the thread still running, never
Paused, with exactly one callback per crossing, in order, each carrying the
zero or more messages of that crossing; and evaluateLogpoint itself never
changes the session state. -/
theorem logpoint_crossings_never_pause :
    ∀ (evalMessages : ResolvedLocation → Frame → List String)
      (condEval : ResolvedLocation → Frame → String → Bool)
      (x : Crossing) (rest : List Crossing) (crossings : List Crossing)
      (m : ThreadModel) (loc : ResolvedLocation) (frame : Frame),
      isLogpoint x.options = true →
      (∀ y ∈ crossings, isLogpoint y.options = true) →
      scanCrossings evalMessages condEval (x :: rest) =
        ((scanCrossings evalMessages condEval rest).1,
          (x.location, evalMessages x.location x.frame) ::
            (scanCrossings evalMessages condEval rest).2) ∧
      (scanCrossings evalMessages condEval crossings).1 = ThreadState.running ∧
      (scanCrossings evalMessages condEval crossings).1 ≠ ThreadState.paused ∧
      (scanCrossings evalMessages condEval crossings).2 =
        crossings.map (fun y => (y.location, evalMessages y.location y.frame)) ∧
      (evaluateLogpoint evalMessages m loc frame).1 = m := by
  intro evalMessages condEval x rest crossings m loc frame hx hall
  have hcont : scanCrossings evalMessages condEval (x :: rest) =
      ((scanCrossings evalMessages condEval rest).1,
        (x.location, evalMessages x.location x.frame) ::
          (scanCrossings evalMessages condEval rest).2) := by
    simp [scanCrossings, hx]
  have main : (scanCrossings evalMessages condEval crossings).1 = ThreadState.running ∧
      (scanCrossings evalMessages condEval crossings).2 =
        crossings.map (fun y => (y.location, evalMessages y.location y.frame)) := by
    induction crossings with
    | nil => exact ⟨rfl, rfl⟩
    | cons z zs ih =>
        have hz := hall z (List.mem_cons_self z zs)
        obtain ⟨ih1, ih2⟩ := ih (fun y hy => hall y (List.mem_cons_of_mem z hy))
        constructor
        · simpa [scanCrossings, hz] using ih1
        · simpa [scanCrossings, hz] using ih2
  refine ⟨hcont, main.1, ?_, main.2, rfl⟩
  rw [main.1]
  intro h
  exact ThreadState.noConfusion h

/-- C4 witness: one concrete logpoint crossing: the scan keeps running and
produces exactly one callback. -/
theorem logpoint_crossing_witness :
    scanCrossings (fun _ _ => [("hit" : String)]) (fun _ _ _ => false)
        [⟨⟨0, 4, 1⟩, ⟨none, some ("x")⟩, ⟨0, 4⟩⟩] =
      ((scanCrossings (fun _ _ => [("hit" : String)]) (fun _ _ _ => false) []).1,
        (⟨0, 4, 1⟩, [("hit" : String)]) ::
          (scanCrossings (fun _ _ => [("hit" : String)]) (fun _ _ _ => false) []).2) ∧
    (scanCrossings (fun _ _ => [("hit" : String)]) (fun _ _ _ => false)
        [⟨⟨0, 4, 1⟩, ⟨none, some ("x")⟩, ⟨0, 4⟩⟩]).1 = ThreadState.running ∧
    (scanCrossings (fun _ _ => [("hit" : String)]) (fun _ _ _ => false)
        [⟨⟨0, 4, 1⟩, ⟨none, some ("x")⟩, ⟨0, 4⟩⟩]).1 ≠ ThreadState.paused ∧
    (scanCrossings (fun _ _ => [("hit" : String)]) (fun _ _ _ => false)
        [⟨⟨0, 4, 1⟩, ⟨none, some ("x")⟩, ⟨0, 4⟩⟩]).2 =
      ([⟨⟨0, 4, 1⟩, ⟨none, some ("x")⟩, ⟨0, 4⟩⟩] : List Crossing).map
        (fun y => (y.location, (fun _ _ => [("hit" : String)]) y.location y.frame)) ∧
    (evaluateLogpoint (fun _ _ => [("hit" : String)])
        ⟨ThreadState.running, 0, none, 0, none⟩ ⟨0, 4, 1⟩ ⟨0, 4⟩).1 =
      ⟨ThreadState.running, 0, none, 0, none⟩ :=
  logpoint_crossings_never_pause (fun _ _ => [("hit" : String)]) (fun _ _ _ => false)
    ⟨⟨0, 4, 1⟩, ⟨none, some ("x")⟩, ⟨0, 4⟩⟩ []
    [⟨⟨0, 4, 1⟩, ⟨none, some ("x")⟩, ⟨0, 4⟩⟩] ⟨ThreadState.running, 0, none, 0, none⟩
    ⟨0, 4, 1⟩ ⟨0, 4⟩ rfl (by intro y hy; simp at hy; subst hy; rfl)

/-- C6: adding a breakpoint on a line with no breakable position fails
synchronously with UnresolvedLocation: the error is the immediate return
value of add. -/
theorem add_unresolved_location_fails :
    ∀ (meta : Nat → Nat → List Nat) (store : BreakpointStore)
      (sourceId line : Nat) (column : Option Nat) (opts : BreakpointOptions),
      meta sourceId line = [] →
      BreakpointStore.add meta store sourceId line column opts =
        Except.error DebuggerError.unresolvedLocation := by
  intro meta store sourceId line column opts hempty
  simp [BreakpointStore.add, resolveLocation, hempty]

/-- C6 witness: a concrete add on an unbreakable line fails with
UnresolvedLocation. -/
theorem add_unresolved_location_witness :
    BreakpointStore.add (fun _ _ => []) ⟨[]⟩ 0 10 none ⟨none, none⟩ =
      Except.error DebuggerError.unresolvedLocation :=
  add_unresolved_location_fails (fun _ _ => []) ⟨[]⟩ 0 10 none ⟨none, none⟩ rfl

theorem filter_ne_filter_eq_nil (l : List Breakpoint) (loc : ResolvedLocation) :
    (l.filter (fun b => b.location ≠ loc)).filter (fun b => b.location = loc) = [] := by
  induction l with
  | nil => rfl
  | cons b l ih =>
      by_cases hb : b.location = loc
      · simp [List.filter_cons, hb, ih]
      · simp [List.filter_cons, hb, ih]

theorem filter_ne_idem (l : List Breakpoint) (loc : ResolvedLocation) :
    (l.filter (fun b => b.location ≠ loc)).filter (fun b => b.location ≠ loc) =
      l.filter (fun b => b.location ≠ loc) := by
  rw [List.filter_filter]
  simp [Bool.and_self]

/-- C3: two adds whose inputs resolve to the same location leave exactly one
stored breakpoint there (the second replaces the options of the first), and
one remove at that resolved location afterwards removes it completely. -/
theorem breakpoint_add_idempotent_remove :
    ∀ (meta : Nat → Nat → List Nat) (store : BreakpointStore) (sourceId line : Nat)
      (c1 c2 : Option Nat) (o1 o2 : BreakpointOptions) (loc : ResolvedLocation),
      resolveLocation meta sourceId line c1 = Except.ok loc →
      resolveLocation meta sourceId line c2 = Except.ok loc →
      ∃ s1 s2 s3,
        BreakpointStore.add meta store sourceId line c1 o1 = Except.ok s1 ∧
        BreakpointStore.add meta s1 sourceId line c2 o2 = Except.ok s2 ∧
        BreakpointStore.countAt s2 loc = 1 ∧
        BreakpointStore.storedAt s2 loc = some ⟨loc, true, o2⟩ ∧
        BreakpointStore.remove meta s2 sourceId line c2 = Except.ok s3 ∧
        BreakpointStore.countAt s3 loc = 0 := by
  intro meta store sourceId line c1 c2 o1 o2 loc h1 h2
  refine ⟨⟨⟨loc, true, o1⟩ :: store.breakpoints.filter (fun b => b.location ≠ loc)⟩,
    ⟨⟨loc, true, o2⟩ :: store.breakpoints.filter (fun b => b.location ≠ loc)⟩,
    ⟨store.breakpoints.filter (fun b => b.location ≠ loc)⟩, ?_, ?_, ?_, ?_, ?_, ?_⟩
  · simp [BreakpointStore.add, h1]
  · simp [BreakpointStore.add, h2, List.filter_cons, filter_ne_idem]
  · simp [BreakpointStore.countAt, List.filter_cons, filter_ne_filter_eq_nil]
  · simp [BreakpointStore.storedAt, List.find?_cons_of_pos]
  · simp [BreakpointStore.remove, h2, List.filter_cons, filter_ne_idem]
  · simp [BreakpointStore.countAt, filter_ne_filter_eq_nil]

/-- C3 witness: add at line 10 with no column, add again at the canonical
column 3 of that line: one stored breakpoint; removing it leaves none. -/
theorem breakpoint_add_idempotent_remove_witness :
    ∃ s1 s2 s3,
      BreakpointStore.add (fun _ _ => [3]) ⟨[]⟩ 0 10 none ⟨none, none⟩ = Except.ok s1 ∧
      BreakpointStore.add (fun _ _ => [3]) s1 0 10 (some 3) ⟨some ("c"), none⟩ = Except.ok s2 ∧
      BreakpointStore.countAt s2 ⟨0, 10, 3⟩ = 1 ∧
      BreakpointStore.storedAt s2 ⟨0, 10, 3⟩ = some ⟨⟨0, 10, 3⟩, true, ⟨some ("c"), none⟩⟩ ∧
      BreakpointStore.remove (fun _ _ => [3]) s2 0 10 (some 3) = Except.ok s3 ∧
      BreakpointStore.countAt s3 ⟨0, 10, 3⟩ = 0 :=
  breakpoint_add_idempotent_remove (fun _ _ => [3]) ⟨[]⟩ 0 10 none (some 3)
    ⟨none, none⟩ ⟨some ("c"), none⟩ ⟨0, 10, 3⟩ rfl (by simp [resolveLocation])

/-- C7 counterexample: the harness disable helper does not snap a supplied
non-zero column.  With breakable column 3 on line 10, the Location Resolver
(the rule add uses) snaps column 7 to the canonical column 3, but
disableBreakpoint keeps column 7, misses the breakpoint added at the
resolved location, and leaves it stored enabled, untouched. -/
theorem disable_unresolved_column_not_snapped :
    harnessDisableColumn (fun _ _ => [3]) 0 10 (some 7) = some 7 ∧
    resolveLocation (fun _ _ => [3]) 0 10 (some 7) = Except.ok ⟨0, 10, 3⟩ ∧
    BreakpointStore.add (fun _ _ => [3]) ⟨[]⟩ 0 10 none ⟨none, none⟩ =
      Except.ok ⟨[⟨⟨0, 10, 3⟩, true, ⟨none, none⟩⟩]⟩ ∧
    harnessDisableBreakpoint (fun _ _ => [3]) ⟨[⟨⟨0, 10, 3⟩, true, ⟨none, none⟩⟩]⟩ 0 10 (some 7) =
      some ⟨[⟨⟨0, 10, 3⟩, true, ⟨none, none⟩⟩]⟩ ∧
    BreakpointStore.storedAt ⟨[⟨⟨0, 10, 3⟩, true, ⟨none, none⟩⟩]⟩ ⟨0, 10, 3⟩ =
      some ⟨⟨0, 10, 3⟩, true, ⟨none, none⟩⟩ := by
  refine ⟨rfl, ?_, ?_, ?_, rfl⟩
  · simp [resolveLocation]
  · simp [BreakpointStore.add, resolveLocation]
  · simp [harnessDisableBreakpoint, harnessDisableColumn, getFirstBreakpointColumn,
      BreakpointStore.storedAt, BreakpointStore.disableAction, List.find?]

theorem disable_map_of_filter_ne (l : List Breakpoint) (loc : ResolvedLocation) :
    (l.filter (fun b => !decide (b.location = loc))).map
        (fun b => if b.location = loc then { b with enabled := false } else b) =
      l.filter (fun b => !decide (b.location = loc)) := by
  induction l with
  | nil => rfl
  | cons b l ih =>
      by_cases hb : b.location = loc
      · simpa [List.filter_cons, hb] using ih
      · simpa [List.filter_cons, hb] using ih

/-- C7 amended: with the column missing, the harness disable helper snaps to
the first breakable position of the line, exactly where the resolver sends
an add with a missing column, so add then disable with the same
(source, line) and no column targets the same stored breakpoint: afterwards
it is still stored there, once, with its enabled flag cleared. -/
theorem disable_missing_column_targets_resolved :
    ∀ (meta : Nat → Nat → List Nat) (store : BreakpointStore)
      (sourceId line first : Nat) (opts : BreakpointOptions),
      (meta sourceId line).head? = some first →
      resolveLocation meta sourceId line none = Except.ok ⟨sourceId, line, first⟩ ∧
      harnessDisableColumn meta sourceId line none = some first ∧
      ∃ s1 s2,
        BreakpointStore.add meta store sourceId line none opts = Except.ok s1 ∧
        harnessDisableBreakpoint meta s1 sourceId line none = some s2 ∧
        BreakpointStore.storedAt s2 ⟨sourceId, line, first⟩ =
          some ⟨⟨sourceId, line, first⟩, false, opts⟩ ∧
        BreakpointStore.countAt s2 ⟨sourceId, line, first⟩ = 1 := by
  intro meta store sourceId line first opts hfirst
  have hresolve : resolveLocation meta sourceId line none =
      Except.ok ⟨sourceId, line, first⟩ := by
    simp [resolveLocation, hfirst]
  have hcol : harnessDisableColumn meta sourceId line none = some first := by
    simp [harnessDisableColumn, getFirstBreakpointColumn, hfirst]
  refine ⟨hresolve, hcol,
    BreakpointStore.mk (⟨⟨sourceId, line, first⟩, true, opts⟩ ::
      store.breakpoints.filter (fun b => b.location ≠ (⟨sourceId, line, first⟩ : ResolvedLocation))),
    BreakpointStore.mk (⟨⟨sourceId, line, first⟩, false, opts⟩ ::
      store.breakpoints.filter (fun b => b.location ≠ (⟨sourceId, line, first⟩ : ResolvedLocation))),
    ?_, ?_, ?_, ?_⟩
  · simp [BreakpointStore.add, hresolve]
  · simp [harnessDisableBreakpoint, hcol, BreakpointStore.storedAt,
      List.find?_cons_of_pos, BreakpointStore.disableAction]
    exact disable_map_of_filter_ne store.breakpoints ⟨sourceId, line, first⟩
  · simp [BreakpointStore.storedAt, List.find?_cons_of_pos]
  · simp [BreakpointStore.countAt, List.filter_cons, filter_ne_filter_eq_nil]

/-- C7 amended witness: one breakable column 3 on line 10: add then disable
with no column disables the one stored breakpoint at (0, 10, 3). -/
theorem disable_missing_column_witness :
    resolveLocation (fun _ _ => [3]) 0 10 none = Except.ok ⟨0, 10, 3⟩ ∧
    harnessDisableColumn (fun _ _ => [3]) 0 10 none = some 3 ∧
    ∃ s1 s2,
      BreakpointStore.add (fun _ _ => [3]) ⟨[]⟩ 0 10 none ⟨none, none⟩ = Except.ok s1 ∧
      harnessDisableBreakpoint (fun _ _ => [3]) s1 0 10 none = some s2 ∧
      BreakpointStore.storedAt s2 ⟨0, 10, 3⟩ = some ⟨⟨0, 10, 3⟩, false, ⟨none, none⟩⟩ ∧
      BreakpointStore.countAt s2 ⟨0, 10, 3⟩ = 1 :=
  disable_missing_column_targets_resolved (fun _ _ => [3]) ⟨[]⟩ 0 10 3 ⟨none, none⟩ rfl
